import Mathlib

/-!
Verification of the NeovimInstance protocol adapter (src/browser/src/NeovimInstance.ts).

The adapter receives batched "redraw" notifications from the editor backend,
decodes each batch into semantic actions that it emits in order, forwards the
plugin side channel, and negotiates the grid size from pixel viewport sizes
and font cell metrics.

The embedding mirrors the JavaScript values flowing through the decoder with
an inductive `Value` type (strings, numbers, booleans, undefined, arrays,
objects-as-association-lists), and models the emit calls as an ordered trace.
-/

namespace Oni

/-- A JavaScript value as it appears in notification payloads: the decoder
sees strings, numbers, booleans, `undefined`, arrays, and plain objects
(modelled as association lists from field names to values). -/
inductive Value where
  | vstr (s : String)
  | vnum (n : Int)
  | vbool (b : Bool)
  | vundefined
  | varr (xs : List Value)
  | vobj (fields : List (String × Value))
deriving Repr

/-- JavaScript `a[n]` for non-negative `n`: indexing an array out of range or
indexing a non-array yields `undefined`. -/
def Value.idx : Value → Nat → Value
  | .varr xs, n => xs.getD n .vundefined
  | _, _ => .vundefined

/-- The array left behind by JavaScript `a.shift()`: the same array without
its first element. -/
def Value.shiftRest : Value → Value
  | .varr xs => .varr xs.tail
  | v => v

/-- JavaScript `a.length` on an array. -/
def Value.lenV : Value → Nat
  | .varr xs => xs.length
  | _ => 0

/-- JavaScript `a.map(v => v[0])` on an array. -/
def Value.mapFirst : Value → List Value
  | .varr xs => xs.map (fun v => v.idx 0)
  | _ => []

/-- JavaScript property access `o.f`: a missing field or a non-object reads
as `undefined`. -/
def Value.getField : Value → String → Value
  | .vobj fields, f =>
      match fields.lookup f with
      | some v => v
      | none => .vundefined
  | _, _ => .vundefined

/-- JavaScript double negation `!!v`: truthiness of a value. -/
def Value.truthy : Value → Bool
  | .vundefined => false
  | .vbool b => b
  | .vnum n => decide (n ≠ 0)
  | .vstr s => decide (s ≠ "")
  | .varr _ => true
  | .vobj _ => true

/-- JavaScript strict equality `v === lit` against a string literal. -/
def Value.eqStr : Value → String → Bool
  | .vstr s, t => s == t
  | _, _ => false

/-- The semantic actions built by the `Actions` module and emitted on the
`action` channel, one constructor per creator used in `_handleNotification`. -/
inductive Action where
  | cursorGoto (row col : Value)
  | put (characters : List Value)
  | setScrollRegion (top bottom left right : Value)
  | scroll (count : Value)
  | setHighlight (bold italic reverse underline undercurl : Bool)
      (foreground background : Value)
  | resizeAction (cols rows : Value)
  | clearToEndOfLine
  | clear
  | updateBackground (color : Value)
  | updateForeground (color : Value)
  | changeMode (mode : Value)
deriving Repr

/-- One observable effect of processing a redraw batch, in emission order:
an `action` event, the side-channel `mode-change` event, or the
`console.warn("Unhandled command: ...")` report for an unrecognized command. -/
inductive Emitted where
  | action (a : Action)
  | modeChange (mode : Value)
  | warnUnhandled (command : Value)
deriving Repr

/-- The body of the `args.forEach((a) => ...)` loop of `_handleNotification`:
reads `a[0]` as the command name, shifts it off, and dispatches on the name,
returning the effects it emits in order.  (An empty `highlight_set` batch
would throw in JavaScript when reading `a[-1][0]`; here indexing is total
and the theorems about `highlight_set` assume at least one tuple.) -/
def decodeBatch (a : Value) : List Emitted :=
  let command := a.idx 0
  let a := a.shiftRest
  if command.eqStr "cursor_goto" then
    [.action (.cursorGoto ((a.idx 0).idx 0) ((a.idx 0).idx 1))]
  else if command.eqStr "put" then
    [.action (.put a.mapFirst)]
  else if command.eqStr "set_scroll_region" then
    let param := a.idx 0
    [.action (.setScrollRegion (param.idx 0) (param.idx 1) (param.idx 2) (param.idx 3))]
  else if command.eqStr "scroll" then
    [.action (.scroll ((a.idx 0).idx 0))]
  else if command.eqStr "highlight_set" then
    let count := a.lenV
    let highlightInfo := (a.idx (count - 1)).idx 0
    [.action (.setHighlight
        (highlightInfo.getField "bold").truthy
        (highlightInfo.getField "italic").truthy
        (highlightInfo.getField "reverse").truthy
        (highlightInfo.getField "underline").truthy
        (highlightInfo.getField "undercurl").truthy
        (highlightInfo.getField "foreground")
        (highlightInfo.getField "background"))]
  else if command.eqStr "resize" then
    [.action (.resizeAction ((a.idx 0).idx 0) ((a.idx 0).idx 1))]
  else if command.eqStr "eol_clear" then
    [.action .clearToEndOfLine]
  else if command.eqStr "clear" then
    [.action .clear]
  else if command.eqStr "mouse_on" then
    []
  else if command.eqStr "update_bg" then
    [.action (.updateBackground ((a.idx 0).idx 0))]
  else if command.eqStr "update_fg" then
    [.action (.updateForeground ((a.idx 0).idx 0))]
  else if command.eqStr "mode_change" then
    let newMode := (a.idx 0).idx 0
    [.action (.changeMode newMode), .modeChange newMode]
  else
    [.warnUnhandled command]

/-- `_handleNotification(method, args)`: iterates over the batches of the
payload in order, appending each batch's emissions to the trace produced so
far (the accumulator plays the role of the emit calls already performed). -/
def handleNotification (args : List Value) (trace : List Emitted) : List Emitted :=
  match args with
  | [] => trace
  | a :: rest => handleNotification rest (trace ++ decodeBatch a)

/-- The actions carried on the `action` channel within a trace of effects:
the successfully decoded screen commands, with warnings and the side-channel
mode signal stripped. -/
def actionsOf (es : List Emitted) : List Action :=
  es.filterMap (fun e =>
    match e with
    | .action a => some a
    | _ => none)

/-- Modelled from the spec: the Highlight State Tracker (the component that
"maintains the currently active text-attribute set") is not part of
NeovimInstance.ts; per the spec its `apply` replaces all fields atomically
when a SetHighlight action arrives, and ignores other actions. -/
structure HighlightState where
  bold : Bool
  italic : Bool
  reverse : Bool
  underline : Bool
  undercurl : Bool
  foreground : Value
  background : Value
deriving Repr

/-- Modelled from the spec: applying one emitted action to the tracked
highlight state (SetHighlight replaces every field; all else is ignored). -/
def applyHighlight (hs : HighlightState) (a : Action) : HighlightState :=
  match a with
  | .setHighlight b i r u uc fg bg =>
      { bold := b, italic := i, reverse := r, underline := u, undercurl := uc,
        foreground := fg, background := bg }
  | _ => hs

/-- The result of dispatching one inbound notification in the constructor's
`on("notification", ...)` handler: the calls forwarded to the plugin
manager, the screen effects emitted, and the `console.warn` for an unknown
notification method, if any. -/
structure NotifyResult where
  pluginCalls : List (Value × List Value)
  effects : List Emitted
  unknownMethod : Option String
deriving Repr

/-- The `on("notification", (method, args) => ...)` handler: `redraw` goes to
`_handleNotification`; `oni_plugin_notify` shifts the first field off the
first payload element in place and forwards `(pluginMethod, args)` — note
`args` is the whole (mutated) payload array, not the shifted-off remainder;
any other method is warned about.  (An empty `oni_plugin_notify` payload
would throw in JavaScript on `args[0].shift()`; no claim exercises it, and
the model forwards the empty payload unchanged.) -/
def onNotification (method : String) (args : List Value) : NotifyResult :=
  if method == "redraw" then
    { pluginCalls := [], effects := handleNotification args [], unknownMethod := none }
  else if method == "oni_plugin_notify" then
    let pluginArgs := args.getD 0 .vundefined
    let pluginMethod := pluginArgs.idx 0
    let mutatedArgs :=
      match args with
      | [] => []
      | a0 :: rest => a0.shiftRest :: rest
    { pluginCalls := [(pluginMethod, mutatedArgs)], effects := [], unknownMethod := none }
  else
    { pluginCalls := [], effects := [], unknownMethod := some method }

/-- The `debug.fixedSize` configuration value: a forced grid size. -/
structure FixedSize where
  rows : Nat
  columns : Nat
deriving Repr

/-- The slice of configuration the resize path reads:
`Config.hasValue("debug.fixedSize")` / `Config.getValue("debug.fixedSize")`. -/
structure AdapterConfig where
  fixedSize : Option FixedSize
deriving Repr

/-- An outbound RPC call issued by the adapter through the session. -/
inductive Request where
  | uiTryResize (columns rows : Nat)
  | uiAttach (columns rows : Nat) (enableUI : Bool)
deriving Repr

/-- The mutable fields of NeovimInstance that the resize path touches, plus
the ordered trace of outbound RPC requests issued so far. -/
structure NeovimState where
  fontWidthInPixels : Nat
  fontHeightInPixels : Nat
  lastWidthInPixels : Nat
  lastHeightInPixels : Nat
  requests : List Request
deriving Repr

/-- `_resizeInternal(rows, columns)`: when `debug.fixedSize` is present the
forced rows/columns replace the computed ones; then `uiTryResize(columns,
rows)` is issued (deferred behind `_initPromise`, whose resolution order is
kept by the trace). -/
def resizeInternal (config : AdapterConfig) (rows columns : Nat)
    (s : NeovimState) : NeovimState :=
  match config.fixedSize with
  | some fixedSize =>
      { s with requests := s.requests ++ [.uiTryResize fixedSize.columns fixedSize.rows] }
  | none =>
      { s with requests := s.requests ++ [.uiTryResize columns rows] }

/-- `resize(widthInPixels, heightInPixels)`: records the pixel viewport,
computes `rows = Math.floor(heightInPixels / fontHeightInPixels)` and
`cols = Math.floor(widthInPixels / fontWidthInPixels)` (floor division of
non-negative numbers is `Nat` division), and calls `_resizeInternal`.
There is no comparison against any previously negotiated grid size. -/
def resize (config : AdapterConfig) (widthInPixels heightInPixels : Nat)
    (s : NeovimState) : NeovimState :=
  let s := { s with lastWidthInPixels := widthInPixels,
                    lastHeightInPixels := heightInPixels }
  let rows := heightInPixels / s.fontHeightInPixels
  let cols := widthInPixels / s.fontWidthInPixels
  resizeInternal config rows cols s

/-- `setFont(fontFamily, fontSize)`: stores the measured cell metrics (the
measurement itself is the external Font Metrics Resolver, so the measured
width/height are parameters) and re-negotiates from the last pixel size. -/
def setFont (config : AdapterConfig) (measuredWidth measuredHeight : Nat)
    (s : NeovimState) : NeovimState :=
  let s := { s with fontWidthInPixels := measuredWidth,
                    fontHeightInPixels := measuredHeight }
  resize config s.lastWidthInPixels s.lastHeightInPixels s

/-- The constructor: records the pixel size passed in, issues
`uiAttach(80, 40, true)` with hard-coded literals once the backend is up,
and calls `setFont("Consolas", "14px")`, whose resize lands after the attach
because `_resizeInternal` chains on `_initPromise`. -/
def construct (config : AdapterConfig) (widthInPixels heightInPixels : Nat)
    (measuredWidth measuredHeight : Nat) : NeovimState :=
  let s : NeovimState :=
    { fontWidthInPixels := 0, fontHeightInPixels := 0,
      lastWidthInPixels := widthInPixels, lastHeightInPixels := heightInPixels,
      requests := [.uiAttach 80 40 true] }
  setFont config measuredWidth measuredHeight s

/-! ## Helper lemmas -/

/-- The forEach/emit loop appends its emissions to whatever trace exists. -/
theorem handleNotification_eq_flatMap (args : List Value) (trace : List Emitted) :
    handleNotification args trace = trace ++ args.flatMap decodeBatch := by
  induction args generalizing trace with
  | nil => simp [handleNotification]
  | cons a rest ih => simp [handleNotification, ih, List.append_assoc]

theorem actionsOf_append (es fs : List Emitted) :
    actionsOf (es ++ fs) = actionsOf es ++ actionsOf fs :=
  List.filterMap_append es fs _

theorem actionsOf_flatMap (args : List Value) (f : Value → List Emitted) :
    actionsOf (args.flatMap f) = args.flatMap (fun a => actionsOf (f a)) := by
  induction args with
  | nil => rfl
  | cons a rest ih => simp [List.flatMap_cons, actionsOf_append, ih]

theorem getD_length_sub_one {α : Type} (l : List α) (d : α) (h : l ≠ []) :
    l[l.length - 1]?.getD d = l.getLast h := by
  have hlen : l.length - 1 < l.length := by
    have : 0 < l.length := List.length_pos.mpr h
    omega
  rw [List.getElem?_eq_getElem hlen, Option.getD_some, List.getLast_eq_getElem]

/-- Batches whose command name is none of the twelve recognized ones fall to
the final `else` and only warn. -/
theorem decodeBatch_unrecognized (name : String) (tuples : List Value)
    (h1 : name ≠ "cursor_goto") (h2 : name ≠ "put") (h3 : name ≠ "set_scroll_region")
    (h4 : name ≠ "scroll") (h5 : name ≠ "highlight_set") (h6 : name ≠ "resize")
    (h7 : name ≠ "eol_clear") (h8 : name ≠ "clear") (h9 : name ≠ "mouse_on")
    (h10 : name ≠ "update_bg") (h11 : name ≠ "update_fg") (h12 : name ≠ "mode_change") :
    decodeBatch (.varr (.vstr name :: tuples)) = [.warnUnhandled (.vstr name)] := by
  simp [decodeBatch, Value.eqStr, Value.idx, beq_iff_eq,
    h1, h2, h3, h4, h5, h6, h7, h8, h9, h10, h11, h12]

/-! ## Claim theorems -/

/-- C1: for every redraw notification, the trace produced by the
forEach/emit loop is exactly the concatenation, in batch order, of each
batch's decoded emissions, and the emitted Actions are exactly the
successfully decoded screen commands in order — nothing reordered, buffered
or dropped. -/
theorem redraw_actions_in_order (args : List Value) :
    handleNotification args [] = args.flatMap decodeBatch ∧
    actionsOf (handleNotification args []) =
      args.flatMap (fun a => actionsOf (decodeBatch a)) := by
  refine ⟨by simpa using handleNotification_eq_flatMap args [], ?_⟩
  rw [handleNotification_eq_flatMap, List.nil_append, actionsOf_flatMap]

/-- C2: a `highlight_set` batch with at least one tuple emits one
SetHighlight action built solely from the LAST tuple (earlier tuples are
ignored), with each flag coerced through JavaScript truthiness, and the
tracked HighlightState after the batch equals that last tuple's fields
exactly, whatever it was before. -/
theorem highlight_set_uses_last_tuple (tuples : List Value) (h : tuples ≠ []) :
    decodeBatch (.varr (.vstr "highlight_set" :: tuples)) =
      [.action (.setHighlight
        (((tuples.getLast h).idx 0).getField "bold").truthy
        (((tuples.getLast h).idx 0).getField "italic").truthy
        (((tuples.getLast h).idx 0).getField "reverse").truthy
        (((tuples.getLast h).idx 0).getField "underline").truthy
        (((tuples.getLast h).idx 0).getField "undercurl").truthy
        (((tuples.getLast h).idx 0).getField "foreground")
        (((tuples.getLast h).idx 0).getField "background"))] ∧
    ∀ hs : HighlightState,
      (actionsOf (decodeBatch (.varr (.vstr "highlight_set" :: tuples)))).foldl
          applyHighlight hs =
        { bold := (((tuples.getLast h).idx 0).getField "bold").truthy,
          italic := (((tuples.getLast h).idx 0).getField "italic").truthy,
          reverse := (((tuples.getLast h).idx 0).getField "reverse").truthy,
          underline := (((tuples.getLast h).idx 0).getField "underline").truthy,
          undercurl := (((tuples.getLast h).idx 0).getField "undercurl").truthy,
          foreground := ((tuples.getLast h).idx 0).getField "foreground",
          background := ((tuples.getLast h).idx 0).getField "background" } := by
  have hmain : decodeBatch (.varr (.vstr "highlight_set" :: tuples)) =
      [.action (.setHighlight
        (((tuples.getLast h).idx 0).getField "bold").truthy
        (((tuples.getLast h).idx 0).getField "italic").truthy
        (((tuples.getLast h).idx 0).getField "reverse").truthy
        (((tuples.getLast h).idx 0).getField "underline").truthy
        (((tuples.getLast h).idx 0).getField "undercurl").truthy
        (((tuples.getLast h).idx 0).getField "foreground")
        (((tuples.getLast h).idx 0).getField "background"))] := by
    simp [decodeBatch, Value.eqStr, Value.idx, Value.shiftRest, Value.lenV,
      getD_length_sub_one tuples Value.vundefined h]
  refine ⟨hmain, fun hs => ?_⟩
  rw [hmain]
  rfl

/-- C2 witness: two `highlight_set` tuples, bold=false then bold=true: the
emitted SetHighlight and the resulting HighlightState carry bold=true from
the last tuple only, whatever the previous state was. -/
theorem highlight_set_uses_last_tuple_check :
    ([Value.varr [Value.vobj [("bold", Value.vbool false)]],
      Value.varr [Value.vobj [("bold", Value.vbool true)]]] : List Value) ≠ [] ∧
    decodeBatch (.varr (.vstr "highlight_set" ::
        [Value.varr [Value.vobj [("bold", Value.vbool false)]],
         Value.varr [Value.vobj [("bold", Value.vbool true)]]])) =
      [.action (.setHighlight true false false false false
        Value.vundefined Value.vundefined)] ∧
    (actionsOf (decodeBatch (.varr (.vstr "highlight_set" ::
        [Value.varr [Value.vobj [("bold", Value.vbool false)]],
         Value.varr [Value.vobj [("bold", Value.vbool true)]]])))).foldl
        applyHighlight
        { bold := false, italic := true, reverse := true, underline := true,
          undercurl := true, foreground := Value.vnum 5, background := Value.vnum 6 } =
      { bold := true, italic := false, reverse := false, underline := false,
        undercurl := false, foreground := Value.vundefined,
        background := Value.vundefined } := by
  have hne : ([Value.varr [Value.vobj [("bold", Value.vbool false)]],
      Value.varr [Value.vobj [("bold", Value.vbool true)]]] : List Value) ≠ [] :=
    List.cons_ne_nil _ _
  refine ⟨hne, ?_, ?_⟩
  · exact (highlight_set_uses_last_tuple _ hne).1
  · exact (highlight_set_uses_last_tuple _ hne).2
      { bold := false, italic := true, reverse := true, underline := true,
        undercurl := true, foreground := Value.vnum 5, background := Value.vnum 6 }

/-- C3: a `put` batch emits exactly one Put action whose payload is each
tuple's first field, in tuple order. -/
theorem put_emits_one_action (tuples : List Value) (h : 1 ≤ tuples.length) :
    decodeBatch (.varr (.vstr "put" :: tuples)) =
      [.action (.put (tuples.map (fun v => v.idx 0)))] := by
  simp [decodeBatch, Value.eqStr, Value.idx, Value.shiftRest, Value.mapFirst]

/-- C3 witness: a two-tuple `put` batch decodes to a single Put action
carrying both characters in order. -/
theorem put_emits_one_action_check :
    1 ≤ ([Value.varr [Value.vstr "a"], Value.varr [Value.vstr "b"]] : List Value).length ∧
    decodeBatch (.varr (.vstr "put" ::
        [Value.varr [Value.vstr "a"], Value.varr [Value.vstr "b"]])) =
      [.action (.put [Value.vstr "a", Value.vstr "b"])] :=
  ⟨by decide,
   by simpa using put_emits_one_action
        [Value.varr [Value.vstr "a"], Value.varr [Value.vstr "b"]] (by decide)⟩

/-- C7: a batch with an unrecognized command name only warns (no Action),
and sibling recognized batches in the same notification still emit their
actions: a notification with one unknown batch and one `clear` batch emits
exactly one Clear action. -/
theorem unknown_command_nonfatal (name : String) (tuples : List Value)
    (h : name ∉ ["cursor_goto", "put", "set_scroll_region", "scroll",
      "highlight_set", "resize", "eol_clear", "clear", "mouse_on",
      "update_bg", "update_fg", "mode_change"]) :
    decodeBatch (.varr (.vstr name :: tuples)) = [.warnUnhandled (.vstr name)] ∧
    actionsOf (decodeBatch (.varr (.vstr name :: tuples))) = [] ∧
    actionsOf (handleNotification
        [.varr (.vstr name :: tuples), .varr [.vstr "clear"]] []) = [Action.clear] := by
  simp only [List.mem_cons, List.not_mem_nil, or_false, not_or] at h
  obtain ⟨h1, h2, h3, h4, h5, h6, h7, h8, h9, h10, h11, h12⟩ := h
  have hu := decodeBatch_unrecognized name tuples h1 h2 h3 h4 h5 h6 h7 h8 h9 h10 h11 h12
  refine ⟨hu, by rw [hu]; rfl, ?_⟩
  rw [handleNotification_eq_flatMap, List.nil_append]
  simp [List.flatMap_cons, actionsOf_append, hu]
  rfl

/-- C7 witness: the concrete unrecognized name `"popupmenu_show"` together
with a `clear` sibling yields exactly one Clear action. -/
theorem unknown_command_nonfatal_check :
    "popupmenu_show" ∉ (["cursor_goto", "put", "set_scroll_region", "scroll",
      "highlight_set", "resize", "eol_clear", "clear", "mouse_on",
      "update_bg", "update_fg", "mode_change"] : List String) ∧
    (decodeBatch (.varr [.vstr "popupmenu_show"]) =
        [.warnUnhandled (.vstr "popupmenu_show")] ∧
      actionsOf (decodeBatch (.varr [.vstr "popupmenu_show"])) = [] ∧
      actionsOf (handleNotification
          [.varr [.vstr "popupmenu_show"], .varr [.vstr "clear"]] []) = [Action.clear]) :=
  ⟨by decide, by simpa using unknown_command_nonfatal "popupmenu_show" [] (by decide)⟩

/-- C9 counterexample: `mouse_off` has no branch in `_handleNotification`:
it falls to the final `else` and IS reported as an unhandled command,
contradicting the claim that it is an acknowledged no-op; `mouse_on` by
contrast decodes to nothing at all. -/
theorem mouse_off_reported_unhandled :
    decodeBatch (.varr [.vstr "mouse_off"]) =
      [.warnUnhandled (.vstr "mouse_off")] ∧
    decodeBatch (.varr [.vstr "mouse_on"]) = [] := by
  constructor <;>
    simp [decodeBatch, Value.eqStr, Value.idx]

/-- C9 amended: `mouse_on` is an intentional, explicitly acknowledged no-op
(no Action, no unhandled report), while `mouse_off` is NOT acknowledged: it
is reported as an unhandled command; neither emits any Action. -/
theorem mouse_commands_behaviour (tuples : List Value) :
    decodeBatch (.varr (.vstr "mouse_on" :: tuples)) = [] ∧
    decodeBatch (.varr (.vstr "mouse_off" :: tuples)) =
      [.warnUnhandled (.vstr "mouse_off")] ∧
    actionsOf (decodeBatch (.varr (.vstr "mouse_on" :: tuples))) = [] ∧
    actionsOf (decodeBatch (.varr (.vstr "mouse_off" :: tuples))) = [] := by
  have hon : decodeBatch (.varr (.vstr "mouse_on" :: tuples)) = [] := by
    simp [decodeBatch, Value.eqStr, Value.idx]
  have hoff : decodeBatch (.varr (.vstr "mouse_off" :: tuples)) =
      [.warnUnhandled (.vstr "mouse_off")] := by
    simp [decodeBatch, Value.eqStr, Value.idx]
  exact ⟨hon, hoff, by rw [hon]; rfl, by rw [hoff]; rfl⟩

/-- C4 counterexample: with 10×10 cell metrics and a trace showing the grid
was already negotiated at `uiTryResize(80, 40)`, applying the viewport
805×403 — which maps by floor division to the SAME grid (80, 40) — still
issues a second, identical resize request: the code keeps no last-negotiated
grid and performs no comparison, so resize negotiation is not idempotent. -/
theorem resize_same_grid_reissues_request :
    (resize { fixedSize := none } 805 403
        { fontWidthInPixels := 10, fontHeightInPixels := 10,
          lastWidthInPixels := 805, lastHeightInPixels := 403,
          requests := [.uiTryResize 80 40] }).requests =
      [Request.uiTryResize 80 40, Request.uiTryResize 80 40] := by
  simp [resize, resizeInternal]

/-- C4 amended: every viewport application issues exactly one resize
request with `rows = floor(heightPx / cellHeight)` and `cols =
floor(widthPx / cellWidth)`, unconditionally — whether or not the computed
grid equals any previously negotiated size. -/
theorem resize_always_issues_request (config : AdapterConfig)
    (w h : Nat) (s : NeovimState) (hc : config.fixedSize = none) :
    (resize config w h s).requests =
      s.requests ++ [Request.uiTryResize
        (w / s.fontWidthInPixels) (h / s.fontHeightInPixels)] := by
  simp [resize, resizeInternal, hc]

/-- C4 witness: the amended law at a concrete state and viewport. -/
theorem resize_always_issues_request_check :
    ({ fixedSize := none } : AdapterConfig).fixedSize = none ∧
    (resize { fixedSize := none } 805 403
        { fontWidthInPixels := 10, fontHeightInPixels := 10,
          lastWidthInPixels := 0, lastHeightInPixels := 0,
          requests := [] }).requests =
      [] ++ [Request.uiTryResize (805 / 10) (403 / 10)] :=
  ⟨rfl, resize_always_issues_request { fixedSize := none } 805 403
    { fontWidthInPixels := 10, fontHeightInPixels := 10,
      lastWidthInPixels := 0, lastHeightInPixels := 0, requests := [] } rfl⟩

/-- C5: when `debug.fixedSize` is present, every resize negotiation — from
a viewport change or from a font change — issues the forced (columns, rows)
regardless of pixel sizes and measured cell metrics. -/
theorem fixed_size_overrides_geometry (config : AdapterConfig) (fs : FixedSize)
    (hc : config.fixedSize = some fs) (w h mw mh : Nat) (s : NeovimState) :
    (resize config w h s).requests =
      s.requests ++ [Request.uiTryResize fs.columns fs.rows] ∧
    (setFont config mw mh s).requests =
      s.requests ++ [Request.uiTryResize fs.columns fs.rows] := by
  constructor <;> simp [resize, setFont, resizeInternal, hc]

/-- C5 witness: a forced 30×100 grid is negotiated untouched by a 805×403
viewport and by new 7×14 font metrics. -/
theorem fixed_size_overrides_geometry_check :
    ({ fixedSize := some { rows := 30, columns := 100 } } : AdapterConfig).fixedSize =
      some { rows := 30, columns := 100 } ∧
    ((resize { fixedSize := some { rows := 30, columns := 100 } } 805 403
        { fontWidthInPixels := 10, fontHeightInPixels := 10,
          lastWidthInPixels := 0, lastHeightInPixels := 0,
          requests := [] }).requests =
      [] ++ [Request.uiTryResize 100 30] ∧
    (setFont { fixedSize := some { rows := 30, columns := 100 } } 7 14
        { fontWidthInPixels := 10, fontHeightInPixels := 10,
          lastWidthInPixels := 0, lastHeightInPixels := 0,
          requests := [] }).requests =
      [] ++ [Request.uiTryResize 100 30]) :=
  ⟨rfl, fixed_size_overrides_geometry { fixedSize := some { rows := 30, columns := 100 } }
    { rows := 30, columns := 100 } rfl 805 403 7 14
    { fontWidthInPixels := 10, fontHeightInPixels := 10,
      lastWidthInPixels := 0, lastHeightInPixels := 0, requests := [] }⟩

/-- C6 counterexample: for the payload `[["pluginMethod", "x", "y"]]` the
code forwards `handleNotification("pluginMethod", [["x","y"]])` — the whole
mutated payload array — NOT `call("pluginMethod", ["x","y"])` as claimed:
the forwarded argument list is `[["x","y"]]`, which differs from
`["x","y"]`.  (The zero-screen-actions part of the claim does hold.) -/
theorem plugin_notify_forwards_wrapped_payload :
    (onNotification "oni_plugin_notify"
        [Value.varr [Value.vstr "pluginMethod", Value.vstr "x", Value.vstr "y"]]).pluginCalls =
      [(Value.vstr "pluginMethod", [Value.varr [Value.vstr "x", Value.vstr "y"]])] ∧
    (onNotification "oni_plugin_notify"
        [Value.varr [Value.vstr "pluginMethod", Value.vstr "x", Value.vstr "y"]]).pluginCalls ≠
      [(Value.vstr "pluginMethod", [Value.vstr "x", Value.vstr "y"])] ∧
    (onNotification "oni_plugin_notify"
        [Value.varr [Value.vstr "pluginMethod", Value.vstr "x", Value.vstr "y"]]).effects = [] := by
  refine ⟨by simp [onNotification, Value.idx, Value.shiftRest], ?_,
    by simp [onNotification]⟩
  intro hEq
  simp [onNotification, Value.idx, Value.shiftRest] at hEq

/-- C6 amended: an `oni_plugin_notify` notification shifts the first
payload element's first field off in place and uses it as the method name,
then forwards the WHOLE payload array (its first element now holding only
the remaining fields) as the arguments; it emits zero screen effects, so no
Action is produced and the tracked HighlightState is unchanged. -/
theorem plugin_notify_no_screen_actions (m : Value) (rest others : List Value) :
    (onNotification "oni_plugin_notify" (Value.varr (m :: rest) :: others)).pluginCalls =
      [(m, Value.varr rest :: others)] ∧
    (onNotification "oni_plugin_notify" (Value.varr (m :: rest) :: others)).effects = [] ∧
    ∀ hs : HighlightState,
      (actionsOf (onNotification "oni_plugin_notify"
          (Value.varr (m :: rest) :: others)).effects).foldl applyHighlight hs = hs :=
  ⟨by simp [onNotification, Value.idx, Value.shiftRest], rfl, fun hs => rfl⟩

/-- C8: with 10×10 cell metrics and no fixed-size override, applying a
805×403 pixel viewport computes cols = floor(805/10) = 80 and rows =
floor(403/10) = 40 and issues exactly one resize request, carrying (80, 40)
in (columns, rows) order. -/
theorem viewport_805x403_one_request (config : AdapterConfig) (s : NeovimState)
    (hc : config.fixedSize = none)
    (hw : s.fontWidthInPixels = 10) (hh : s.fontHeightInPixels = 10) :
    (resize config 805 403 s).requests =
      s.requests ++ [Request.uiTryResize 80 40] := by
  simp [resize, resizeInternal, hc, hw, hh]

/-- C8 witness: the scenario at a concrete starting state. -/
theorem viewport_805x403_one_request_check :
    ({ fixedSize := none } : AdapterConfig).fixedSize = none ∧
    ({ fontWidthInPixels := 10, fontHeightInPixels := 10,
       lastWidthInPixels := 0, lastHeightInPixels := 0,
       requests := [] } : NeovimState).fontWidthInPixels = 10 ∧
    ({ fontWidthInPixels := 10, fontHeightInPixels := 10,
       lastWidthInPixels := 0, lastHeightInPixels := 0,
       requests := [] } : NeovimState).fontHeightInPixels = 10 ∧
    (resize { fixedSize := none } 805 403
        { fontWidthInPixels := 10, fontHeightInPixels := 10,
          lastWidthInPixels := 0, lastHeightInPixels := 0,
          requests := [] }).requests =
      [] ++ [Request.uiTryResize 80 40] :=
  ⟨rfl, rfl, rfl, viewport_805x403_one_request { fixedSize := none }
    { fontWidthInPixels := 10, fontHeightInPixels := 10,
      lastWidthInPixels := 0, lastHeightInPixels := 0, requests := [] } rfl rfl rfl⟩

/-- C10: whatever pixel size the constructor receives and whatever cell
metrics the font measurement returns, the attach handshake is issued first
and always as `uiAttach(80, 40, true)` — the constant initial grid with the
enable-UI flag set. -/
theorem attach_constant_grid (config : AdapterConfig) (w h mw mh : Nat) :
    (construct config w h mw mh).requests.head? =
      some (Request.uiAttach 80 40 true) ∧
    ((construct config w h mw mh).requests.filter
        (fun r => match r with
          | .uiAttach _ _ _ => true
          | _ => false)) = [Request.uiAttach 80 40 true] := by
  cases hc : config.fixedSize <;>
    simp [construct, setFont, resize, resizeInternal, hc, List.filter]
